import Mathlib

set_option synthInstance.maxSize 1000

/-!
Verification development for the js-log repository (src/index.js).

The source file holds two logger implementations:
* a context/filter logger (`Log` with `child`, `submit`, `prep`, `filter`,
  `trace`, `error`, src lines 55-264), and
* a batching logger (`Log` with `write`, `flush`, `prepMsg`, src lines 269-420).

Both are embedded below.  JavaScript values are modeled by the inductive
`JSVal`; JavaScript objects are modeled as association lists whose lookup
returns the first binding of a key.  Numbers are modeled as `Int` except where
NaN matters: there `Option Int` is used, with `none` standing for NaN (and for
`undefined` coerced to a number), mirroring the JavaScript comparison and
`Math.max` behavior on NaN.

Recursive string coercions (`Array.prototype.join`, `JSON.stringify`) descend
into nested values; they are written with an explicit fuel argument so that
they are structurally recursive and evaluate definitionally.  Every concrete
value appearing in a theorem below has depth far below the fuel used by the
wrappers, so the fuel-exhaustion branches are never reached there.
-/

namespace JsLog

/-- Model of a JavaScript value as used by the logger: strings, numbers
(integral, which is all the source ever produces), booleans, null, undefined,
arrays, plain objects, and Error instances (with their non-enumerable
`message`, `code` and `stack` properties). -/
inductive JSVal where
  | vstr (s : String)
  | vnum (n : Int)
  | vbool (b : Bool)
  | vnull
  | vundefined
  | varr (elems : List JSVal)
  | vobj (fields : List (String × JSVal))
  | verr (msg : String) (code : Option String) (stack : Option String)

/-- JavaScript truthiness of a value: empty string, zero, false, null and
undefined are falsy; every array, object and Error instance is truthy. -/
def truthyJ : JSVal → Bool
  | .vstr s => s ≠ ""
  | .vnum n => n ≠ 0
  | .vbool b => b
  | .vnull => false
  | .vundefined => false
  | .varr _ => true
  | .vobj _ => true
  | .verr _ _ _ => true

/-- True exactly for null and undefined, the two values loosely equal to null
(the test `x != null` in the source is false exactly on these). -/
def looseNull : JSVal → Bool
  | .vnull => true
  | .vundefined => true
  | _ => false

/-- Elements that `Array.prototype.join` renders as the empty string. -/
def isNullish : JSVal → Bool
  | .vnull => true
  | .vundefined => true
  | _ => false

/-- ToString coercion of a JavaScript value, with fuel for nested arrays.
Arrays stringify as their elements joined by commas with null and undefined
rendered empty; plain objects give the usual object tag; Error gives
the `Error: message` form of `Error.prototype.toString`. -/
def jsToStrF : Nat → JSVal → String
  | _, .vstr s => s
  | _, .vnum n => toString n
  | _, .vbool b => if b then ("true") else ("false")
  | _, .vnull => "null"
  | _, .vundefined => "undefined"
  | 0, .varr _ => ""
  | fuel + 1, .varr xs =>
      String.intercalate (",") (xs.map (fun x =>
        if isNullish x then ("") else jsToStrF fuel x))
  | _, .vobj _ => "[object Object]"
  | _, .verr m _ _ => "Error: " ++ m

/-- ToString coercion at a fuel exceeding any depth used in this file. -/
def jsToStr (v : JSVal) : String := jsToStrF 1000 v

/-- Join of array elements by a separator, as `Array.prototype.join`:
null and undefined become empty strings, other elements are coerced. -/
def jsJoin (sep : String) (xs : List JSVal) : String :=
  String.intercalate sep (xs.map (fun x => if isNullish x then ("") else jsToStr x))

/-- JSON escaping of a single character. -/
def jsonEscChar (c : Char) : String :=
  if c = '"' then ("\\\"")
  else if c = '\\' then ("\\\\")
  else if c = '\n' then ("\\n")
  else if c = '\t' then ("\\t")
  else if c = '\r' then ("\\r")
  else String.singleton c

/-- A JSON string literal for `s`, double quoted and escaped. -/
def quoteJson (s : String) : String :=
  "\"" ++ String.join (s.toList.map jsonEscChar) ++ "\""

/-- Compact `JSON.stringify` (no indent), with fuel for nested values.
`none` models the undefined result on an undefined input; undefined array
elements render as null, undefined object members are omitted; an Error
instance has no enumerable own properties and stringifies to `{}`. -/
def jsonStrF : Nat → JSVal → Option String
  | _, .vstr s => some (quoteJson s)
  | _, .vnum n => some (toString n)
  | _, .vbool b => some (if b then ("true") else ("false"))
  | _, .vnull => some ("null")
  | _, .vundefined => none
  | 0, .varr _ => some ("[]")
  | fuel + 1, .varr xs =>
      some ("[" ++ String.intercalate (",")
        (xs.map (fun x => (jsonStrF fuel x).getD ("null"))) ++ "]")
  | 0, .vobj _ => some ("\x7b\x7d")
  | fuel + 1, .vobj fs =>
      some ("\x7b" ++ String.intercalate (",")
        (fs.filterMap (fun p => (jsonStrF fuel p.2).map
          (fun s => quoteJson p.1 ++ ":" ++ s))) ++ "\x7d")
  | _, .verr _ _ _ => some ("\x7b\x7d")

/-- Compact `JSON.stringify` at a fuel exceeding any depth used here. -/
def jsonStr (v : JSVal) : Option String := jsonStrF 1000 v

/-- The value of `JSON.stringify(message)` as assigned by the source: a string
for every defined result, the undefined value otherwise. -/
def jsonStringifyVal (v : JSVal) : JSVal :=
  match jsonStr v with
  | some s => .vstr s
  | none => .vundefined

/-- A run of `n` spaces. -/
def spaces (n : Nat) : String := String.mk (List.replicate n ' ')

/-- Indented `JSON.stringify(v, null, 4)` at indentation column `ind`, with
fuel for nested values.  Members are placed one per line, indented four
further columns, with `: ` after object keys, matching the JavaScript
output format. -/
def jsonPrettyF : Nat → Nat → JSVal → Option String
  | _, _, .vstr s => some (quoteJson s)
  | _, _, .vnum n => some (toString n)
  | _, _, .vbool b => some (if b then ("true") else ("false"))
  | _, _, .vnull => some ("null")
  | _, _, .vundefined => none
  | 0, _, .varr _ => some ("[]")
  | fuel + 1, ind, .varr xs =>
      if xs.isEmpty then some ("[]")
      else some ("[\n" ++ String.intercalate (",\n")
        (xs.map (fun x => spaces (ind + 4) ++ (jsonPrettyF fuel (ind + 4) x).getD ("null")))
        ++ "\n" ++ spaces ind ++ "]")
  | 0, _, .vobj _ => some ("\x7b\x7d")
  | fuel + 1, ind, .vobj fs =>
      let items := fs.filterMap (fun p => (jsonPrettyF fuel (ind + 4) p.2).map
        (fun s => spaces (ind + 4) ++ quoteJson p.1 ++ ": " ++ s))
      if items.isEmpty then some ("\x7b\x7d")
      else some ("\x7b\n" ++ String.intercalate (",\n") items ++ "\n" ++ spaces ind ++ "\x7d")
  | _, _, .verr _ _ _ => some ("\x7b\x7d")

/-- Indented stringify at top level with ample fuel. -/
def jsonPretty (v : JSVal) : Option String := jsonPrettyF 1000 0 v

/-- ToNumber coercion used by the numeric comparison in `filter`, with `none`
standing for NaN: undefined is NaN, null is 0, booleans are 0 or 1, and a
string is its trimmed decimal reading when it has one.  Arrays, objects and
Error values coerce through strings in JavaScript; the source only ever
compares the number stored in `context.level`, so those are modeled as NaN. -/
def jsToNum : JSVal → Option Int
  | .vnum n => some n
  | .vbool b => some (if b then 1 else 0)
  | .vnull => some 0
  | .vundefined => none
  | .vstr s => if s.trim = "" then some 0 else s.trim.toInt?
  | .varr _ => none
  | .vobj _ => none
  | .verr _ _ _ => none

/-! ### JavaScript objects as association lists -/

/-- A JavaScript object: bindings in property order, first binding wins. -/
abbrev JObj := List (String × JSVal)

/-- Property read returning `none` when the key is absent. -/
def objGetOpt (o : JObj) (k : String) : Option JSVal :=
  (o.find? (fun p => p.1 == k)).map (fun p => p.2)

/-- Property read: an absent key reads as undefined. -/
def objGet (o : JObj) (k : String) : JSVal :=
  (objGetOpt o k).getD .vundefined

/-- Property assignment: update the binding of `k` in place when present,
append a new binding otherwise, as JavaScript assignment does. -/
def objSet : JObj → String → JSVal → JObj
  | [], k, v => [(k, v)]
  | p :: rest, k, v => if p.1 = k then (k, v) :: rest else p :: objSet rest k v

/-- The result of `Object.assign(\x7b\x7d, a, b)`: the keys of `b` override the
keys of `a`.  With first-binding-wins lookup, prepending `b` makes its
bindings shadow those of `a`. -/
def jsAssign (a b : JObj) : JObj := b ++ a

/-- Property read on an arbitrary value: objects read their fields, an Error
instance exposes `message`, `code` and `stack`; reads on other values used by
the source yield undefined. -/
def jsGetProp : JSVal → String → JSVal
  | .vobj fs, k => objGet fs k
  | .verr m c s, k =>
      if k = "message" then .vstr m
      else if k = "code" then (match c with | some x => .vstr x | none => .vundefined)
      else if k = "stack" then (match s with | some x => .vstr x | none => .vundefined)
      else .vundefined
  | _, _ => .vundefined

/-- The own enumerable properties copied by `Object.assign(\x7b\x7d, v)`:
the fields of a plain object, index bindings for an array, nothing for an
Error instance (its `message`, `code` and `stack` are not enumerable, which is
why the source copies them explicitly in `prep`), nothing for primitives. -/
def toObj : JSVal → JObj
  | .vobj fs => fs
  | .varr xs => (xs.enum).map (fun p => (toString p.1, p.2))
  | _ => []

/-! ### The context/filter logger (src/index.js lines 55-264) -/

/-- The filter table `top.filters` as iterated through `top.filterEntries`
(src line 103): rules in declared order, each a field key with its
value-to-level table. -/
abbrev FilterEntries := List (String × List (String × Int))

/-- Lookup in the value-to-level table of one rule; `none` models the
undefined result of a missing property. -/
def lvlGet (item : List (String × Int)) (k : String) : Option Int :=
  (item.find? (fun p => p.1 == k)).map (fun p => p.2)

/-- The JavaScript test `x < 0` where `x` may be undefined or NaN (`none`):
comparisons on NaN are false. -/
def jsLtZero : Option Int → Bool
  | some l => decide (l < 0)
  | none => false

/-- `Math.max` on possibly-NaN numbers: NaN absorbs. -/
def jsMaxN : Option Int → Option Int → Option Int
  | some a, some b => some (max a b)
  | _, _ => none

/-- The JavaScript test `a > b` on possibly-NaN numbers: false when either
side is NaN. -/
def jsGtN : Option Int → Option Int → Bool
  | some a, some b => decide (a > b)
  | _, _ => false

/-- Embeds src line 205, `(context[key]) ? item[context[key]] : -1`: with a
truthy field value the rule table is consulted at the ToString of that value
(a missing entry reads as undefined, `none`); otherwise the -1 sentinel. -/
def filterThisLevel (ctx : JObj) (key : String) (item : List (String × Int)) : Option Int :=
  if truthyJ (objGet ctx key) then lvlGet item (jsToStr (objGet ctx key)) else some (-1)

/-- Embeds the rule loop of Log.filter (src lines 204-211): returns `none`
when some rule took the early `return false`, otherwise the final value of
the `level` variable (possibly NaN). -/
def filterLoop (ctx : JObj) : FilterEntries → Option Int → Option (Option Int)
  | [], level => some level
  | (key, item) :: rest, level =>
      let thisLevel := filterThisLevel ctx key item
      if jsLtZero thisLevel then none
      else filterLoop ctx rest (jsMaxN level thisLevel)

/-- Embeds Log.filter (src lines 198-217): `topLevel` is `top.level`,
`filters` is `top.filters` paired with `top.filterEntries` (`none` models the
initial null), `ctx` is `params.context`.  After the rule loop the event is
suppressed exactly when `context.level > level` evaluates true. -/
def filter (topLevel : Int) (filters : Option FilterEntries) (ctx : JObj) : Bool :=
  let res : Option (Option Int) :=
    match filters with
    | none => some (some topLevel)
    | some entries => filterLoop ctx entries (some topLevel)
  match res with
  | none => false
  | some level => !(jsGtN (jsToNum (objGet ctx ("level"))) level)

/-- The list of per-rule levels computed by the filter loop, defined when
every declared field picks an actual entry value (possibly the -1 sentinel
for a falsy field) rather than an undefined lookup.  Used to state the
claims about accepted events. -/
def matchedLevels (ctx : JObj) : FilterEntries → Option (List Int)
  | [] => some []
  | (key, item) :: rest =>
      match filterThisLevel ctx key item, matchedLevels ctx rest with
      | some l, some ls => some (l :: ls)
      | _, _ => none

/-- Embeds the context construction of Log.child (src line 70):
`Object.assign(\x7b\x7d, this.context, context)`. -/
def childCtx (parent extra : JObj) : JObj := jsAssign parent extra

/-- The context of the node obtained from `root` by a chain of child
derivations with the given extra contexts, in order. -/
def deriveChain (root : JObj) (steps : List JObj) : JObj := steps.foldl childCtx root

/-- Stated from the specification words, for comparison with `deriveChain`:
the effective context is the root-to-node chain merged left to right with
later keys overriding earlier same-named keys; a key reads as the value in
the most specific (latest) context that binds it, else the root binding. -/
def specChainLookup (root : JObj) (steps : List JObj) (k : String) : Option JSVal :=
  match (steps.reverse).findSome? (fun d => objGetOpt d k) with
  | some v => some v
  | none => objGetOpt root k

/-- Embeds Log.submit (src lines 138-147) up to the call of write: copies the
caller context, routes the message into `message` or `subject`, stamps the
type and defaults the level to 0 when it is loosely null. -/
def submitCtx (type : String) (message : JSVal) (context : JSVal) : JObj :=
  let ctx := toObj context
  let ctx := if truthyJ (objGet ctx ("message")) then objSet ctx ("subject") message
             else objSet ctx ("message") message
  let ctx := objSet ctx ("type") (.vstr type)
  objSet ctx ("level") (if looseNull (objGet ctx ("level")) then .vnum 0 else objGet ctx ("level"))

/-- Embeds the stack decomposition of Log.prep (src line 178):
`err.stack.split(\x27\n\x27).map(s => s.trim())`. -/
def splitTrim (s : String) : JSVal :=
  .varr ((s.splitOn ("\n")).map (fun t => .vstr t.trim))

/-- Embeds the exception normalization of Log.prep (src lines 174-182): a
shallow copy of the error value, with the stack decomposed into trimmed
lines when present and a string, and `message` and `code` copied explicitly
(they are not enumerable on an Error instance). -/
def prepException (err : JSVal) : JObj :=
  let ex := toObj err
  let ex := match jsGetProp err ("stack") with
    | .vstr s => if s ≠ "" then objSet ex ("stack") (splitTrim s) else ex
    | _ => ex
  let ex := objSet ex ("message") (jsGetProp err ("message"))
  objSet ex ("code") (jsGetProp err ("code"))

/-- Embeds Log.prep (src lines 157-193).  The impure `new Date()` of line 187
is modeled by the clock parameter `now`.  Returns the merged `params.context`
of line 192 together with the flag telling whether line 185 set
`ops.notify`. -/
def prep (selfContext : JObj) (topLevel : Int) (now : Int) (context : JSVal) : JObj × Bool :=
  let message := jsGetProp context ("message")
  let ctx : JObj :=
    match context with
    | .verr m c s => [("exception", .verr m c s), ("message", .vstr m)]
    | _ =>
      match message with
      | .verr m c s =>
          objSet (objSet (toObj context) ("exception") (.verr m c s)) ("message") (.vstr m)
      | .vstr _ => toObj context
      | _ => objSet (toObj context) ("message") (jsonStringifyVal message)
  let ctx :=
    if truthyJ (objGet ctx ("exception")) then
      objSet ctx ("exception") (.vobj (prepException (objGet ctx ("exception"))))
    else ctx
  let notify := truthyJ (objGet ctx ("template"))
  let ctx := objSet ctx ("time") (.vnum now)
  let ctx := objSet ctx ("cutoff") (.vnum topLevel)
  let ctx :=
    match objGet ctx ("message") with
    | .varr xs => objSet ctx ("message") (.vstr (jsJoin (" ") xs))
    | _ => ctx
  (jsAssign selfContext ctx, notify)

/-- The event normalization performed by a log call: Log.submit builds the
context object (src lines 138-147) and Log.write passes it to Log.prep
(src lines 150-151). -/
def logCall (selfContext : JObj) (topLevel : Int) (now : Int) (type : String)
    (message : JSVal) (context : JSVal) : JObj × Bool :=
  prep selfContext topLevel now (.vobj (submitCtx type message context))

/-- Embeds the mutation of the caller context performed by Log.trace
(src line 134): `context.level = context.level != null ? context.level : 5`.
The source assigns through the caller reference without copying first, so
this is the state of the caller object after the call; Log.submit then copies
the object (line 139) before making further changes. -/
def traceCtxAfter (context : JObj) : JObj :=
  objSet context ("level")
    (if looseNull (objGet context ("level")) then .vnum 5 else objGet context ("level"))

/-- The search text of src line 116. -/
def errorIndexOfPat : String := "Cannot read property \x27split\x27"

/-- Embeds Log.error (src lines 114-121) up to the call of submit.  The guard
`message && message.indexOf(...) >= 0` looks up the `indexOf` method on the
message: strings and arrays have one; on every other truthy value the lookup
yields undefined and the call raises a TypeError, which the method does not
catch, modeled by the error result.  In the guarded branch the source
captures a fresh stack text, an impure value abstracted here as the literal
stack string.  Returns the message-context pair handed to submit. -/
def errorMethod (message : JSVal) (context : JSVal) : Except String (JSVal × JSVal) :=
  if truthyJ message then
    match message with
    | .vstr s =>
        if (s.splitOn errorIndexOfPat).length > 1 then
          pure (message, .vobj (objSet (if truthyJ context then toObj context else [])
            ("stack") (.vstr ("stack"))))
        else pure (message, context)
    | .varr xs =>
        if xs.any (fun v => match v with | .vstr t => t == errorIndexOfPat | _ => false) then
          pure (message, .vobj (objSet (if truthyJ context then toObj context else [])
            ("stack") (.vstr ("stack"))))
        else pure (message, context)
    | _ => Except.error ("TypeError: message.indexOf is not a function")
  else pure (message, context)

/-! ### The batching logger (src/index.js lines 269-420) -/

/-- An entry of the output buffer: `[type, from, msg]` (src line 341). -/
abbrev Entry := String × String × String

/-- The mutable state of the batching logger that flush and write touch:
the `type` and `from` filter maps, the pending `output` buffer and the
`scheduled` flag.  The synchronous configuration (`sync`) flushes inline
inside write and is not part of the batched behavior modeled here. -/
structure WState where
  typeMap : List (String × Bool)
  fromMap : List (String × Bool)
  output : List Entry
  scheduled : Bool
deriving DecidableEq

/-- Truthiness of a filter-map member such as `this.type[type]`: present and
true. -/
def mapHas (m : List (String × Bool)) (k : String) : Bool :=
  match (m.find? (fun p => p.1 == k)).map (fun p => p.2) with
  | some b => b
  | none => false

/-- Embeds the per-item conversion of Log.prepMsg (src lines 375-383):
strings pass through, Error values use their toString, everything else is
stringified with `JSON.stringify(item, null, 4)` (undefined for an undefined
item). -/
def prepMsgItem : JSVal → Option String
  | .vstr s => some s
  | .verr m _ _ => some ("Error: " ++ m)
  | v => jsonPretty v

/-- Embeds Log.prepMsg (src lines 373-385): the prepared items joined by
single spaces, an undefined item rendering as the empty string under
`Array.prototype.join`. -/
def prepMsg (msg : List JSVal) : String :=
  String.intercalate (" ") (msg.map (fun item => (prepMsgItem item).getD ("")))

/-- Embeds Log.write of the batching logger (src lines 327-357) in the
asynchronous configuration: the four filter-map guards, then push of the
prepared entry onto the live output buffer; the deferred flush callback of
lines 344-356 is modeled by the `scheduled` flag becoming true (when already
true the source skips rescheduling, leaving the flag true as well).  The
synchronous branch of line 342 flushes inline and is modeled by `flush`
directly. -/
def writeAsync (type from2 : String) (msg : List JSVal) (st : WState) : WState :=
  if !(mapHas st.typeMap type || mapHas st.typeMap ("all")) then st
  else if mapHas st.typeMap ("!" ++ type) then st
  else if !(mapHas st.fromMap from2 || mapHas st.fromMap ("all")) then st
  else if mapHas st.fromMap ("!" ++ from2) then st
  else { st with output := st.output ++ [(type, from2, prepMsg msg)], scheduled := true }

/-- A sink adapter as observable by the scheduler: a write that returns, a
write that throws, or a write that re-entrantly submits an event through the
asynchronous Log.write. -/
inductive SinkB where
  | ok
  | throws
  | resubmit (type from2 : String) (msg : List JSVal)

/-- Whether a sink re-entrantly submits. -/
def isResubmit : SinkB → Bool
  | .resubmit _ _ _ => true
  | _ => false

/-- Embeds the sink loop of Log.flush (src lines 363-365) inside its try
block: each call of `logger.write(this.output)` hands the sink the live
output buffer, recorded here as the buffer contents at call time together
with the sink index.  A throwing sink ends the loop (the try block wraps the
whole loop); the Bool reports whether an exception was caught.  A
re-entrant submit runs the asynchronous write against the current state, so
its event lands in the same live buffer. -/
def writeSinks : List SinkB → Nat → WState → WState × List (Nat × List Entry) × Bool
  | [], _, st => (st, [], false)
  | SinkB.throws :: _, i, st => (st, [(i, st.output)], true)
  | SinkB.ok :: rest, i, st =>
      let r := writeSinks rest (i + 1) st
      (r.1, (i, st.output) :: r.2.1, r.2.2)
  | SinkB.resubmit t f m :: rest, i, st =>
      let st2 := writeAsync t f m st
      let r := writeSinks rest (i + 1) st2
      (r.1, (i, st.output) :: r.2.1, r.2.2)

/-- Embeds Log.flush (src lines 359-371): clear `scheduled`, and when the
buffer is non-empty run the sink loop inside try/catch (a caught exception is
reported through `console.log`, the Bool here) and assign a fresh empty
buffer afterwards.  The function is total: no exception propagates to the
caller of flush.  Returns the final state, the sink calls made (index and
batch contents handed over) and the caught-exception report. -/
def flush (sinks : List SinkB) (st : WState) : WState × List (Nat × List Entry) × Bool :=
  let st0 := { st with scheduled := false }
  if st0.output.length > 0 then
    let r := writeSinks sinks 0 st0
    ({ r.1 with output := [] }, r.2.1, r.2.2)
  else (st0, [], false)

/-- The number of sinks the loop reaches: every sink up to and including the
first throwing one. -/
def deliveredCount : List SinkB → Nat
  | [] => 0
  | SinkB.throws :: _ => 1
  | _ :: rest => deliveredCount rest + 1

/-- Whether the loop runs into a throwing sink. -/
def reachesThrow : List SinkB → Bool
  | [] => false
  | SinkB.throws :: _ => true
  | _ :: rest => reachesThrow rest

/-! ### Helper lemmas -/

/-- Boolean string comparison of two distinct strings. -/
theorem strBeqFalse {a b : String} (h : ¬ a = b) : (a == b) = false := by
  simpa using h

/-- A state whose flag is already clear is unchanged by clearing it. -/
theorem wstate_eta (x : WState) (h : x.scheduled = false) :
    ({ x with scheduled := false } : WState) = x := by
  cases x
  simp_all

/-- Reading the key just assigned gives the assigned value. -/
theorem objGetOpt_objSet_self (o : JObj) (k : String) (v : JSVal) :
    objGetOpt (objSet o k v) k = some v := by
  induction o with
  | nil => simp [objSet, objGetOpt]
  | cons p rest ih =>
      by_cases h : p.1 = k
      · simp [objSet, h, objGetOpt]
      · simp only [objSet, if_neg h, objGetOpt]
        rw [List.find?_cons_of_neg _ (by simp [h])]
        exact ih

/-- Assignment leaves every other key unchanged. -/
theorem objGetOpt_objSet_of_ne (o : JObj) (k : String) (v : JSVal) (k2 : String)
    (h : k2 ≠ k) : objGetOpt (objSet o k v) k2 = objGetOpt o k2 := by
  have hke : ¬ k = k2 := fun hh => h hh.symm
  induction o with
  | nil =>
      simp only [objSet, objGetOpt, List.find?_nil]
      rw [List.find?_cons_of_neg _ (by simp [hke]), List.find?_nil]
  | cons p rest ih =>
      by_cases hp : p.1 = k
      · simp only [objSet, if_pos hp, objGetOpt]
        rw [List.find?_cons_of_neg _ (by simp [hke]),
            List.find?_cons_of_neg _ (by simp [hp, hke])]
      · simp only [objSet, if_neg hp, objGetOpt] at ih ⊢
        by_cases hc : p.1 = k2
        · rw [List.find?_cons_of_pos _ (by simp [hc]), List.find?_cons_of_pos _ (by simp [hc])]
        · rw [List.find?_cons_of_neg _ (by simp [hc]), List.find?_cons_of_neg _ (by simp [hc])]
          exact ih

/-- Lookup in a concatenation searches the left bindings first. -/
theorem objGetOpt_append (a b : JObj) (k : String) :
    objGetOpt (a ++ b) k = (objGetOpt a k).or (objGetOpt b k) := by
  simp only [objGetOpt, List.find?_append]
  cases a.find? (fun p => p.1 == k) <;> simp

/-- The filter loop on rules whose every lookup produced an actual value:
reject when some produced level is negative, else finish with the maximum. -/
theorem filterLoop_of_matched (ctx : JObj) (entries : FilterEntries) :
    ∀ (bot : Int) (ls : List Int), matchedLevels ctx entries = some ls →
    filterLoop ctx entries (some bot) =
      (if ls.any (fun l => decide (l < 0)) then none
       else some (some (ls.foldl max bot))) := by
  induction entries with
  | nil =>
      intro bot ls h
      simp only [matchedLevels, Option.some.injEq] at h
      subst h
      simp [filterLoop]
  | cons e rest ih =>
      intro bot ls h
      obtain ⟨key, item⟩ := e
      simp only [matchedLevels] at h
      cases ht : filterThisLevel ctx key item with
      | none => rw [ht] at h; simp at h
      | some l =>
          rw [ht] at h
          cases hr : matchedLevels ctx rest with
          | none => rw [hr] at h; simp at h
          | some ls2 =>
              rw [hr] at h
              simp only [Option.some.injEq] at h
              subst h
              simp only [filterLoop, ht, jsLtZero]
              by_cases hl : l < 0
              · simp [hl]
              · have hdl : decide (l < 0) = false := by simpa using hl
                rw [if_neg (by simp [hdl])]
                simp only [jsMaxN]
                rw [ih (max bot l) ls2 hr]
                simp only [List.any_cons, List.foldl_cons, hdl, Bool.false_or]

/-- When a declared rule key is falsy on the event, the loop takes the early
rejection, whatever the running level is. -/
theorem filterLoop_none_of_falsy (ctx : JObj) (key : String) (item : List (String × Int)) :
    ∀ (entries : FilterEntries) (lvl : Option Int), (key, item) ∈ entries →
    truthyJ (objGet ctx key) = false → filterLoop ctx entries lvl = none := by
  intro entries
  induction entries with
  | nil => intro lvl h; simp at h
  | cons e rest ih =>
      intro lvl hmem hf
      obtain ⟨k2, item2⟩ := e
      rcases List.mem_cons.mp hmem with heq | htail
      · obtain ⟨h1, h2⟩ : key = k2 ∧ item = item2 := by simpa using heq
        subst h1
        simp [filterLoop, filterThisLevel, hf, jsLtZero]
      · simp only [filterLoop]
        by_cases hz : jsLtZero (filterThisLevel ctx k2 item2) = true
        · simp [hz]
        · simp only [Bool.not_eq_true] at hz
          rw [if_neg (by simp [hz])]
          exact ih _ htail hf

/-- The derived context of a chain agrees pointwise with the specification
merge of the chain. -/
theorem deriveChain_lookup (steps : List JObj) :
    ∀ (root : JObj) (k : String),
    objGetOpt (deriveChain root steps) k = specChainLookup root steps k := by
  induction steps with
  | nil => intro root k; simp [deriveChain, specChainLookup]
  | cons s rest ih =>
      intro root k
      have h1 : deriveChain root (s :: rest) = deriveChain (childCtx root s) rest := rfl
      rw [h1, ih]
      simp only [specChainLookup, List.reverse_cons, List.findSome?_append]
      cases hr : rest.reverse.findSome? (fun d => objGetOpt d k) with
      | some v => simp
      | none =>
          simp only [Option.none_or]
          simp only [List.findSome?_cons, List.findSome?_nil]
          simp only [childCtx, jsAssign, objGetOpt_append]
          cases objGetOpt s k <;> simp

/-- The sink loop without re-entrant sinks: the state is untouched, every
reached sink is handed the same buffer contents, and the report is set when
the loop ran into a throwing sink. -/
theorem writeSinks_no_resubmit :
    ∀ (sinks : List SinkB) (i : Nat) (st : WState),
    (∀ s ∈ sinks, isResubmit s = false) →
    writeSinks sinks i st =
      (st, (List.range' i (deliveredCount sinks)).map (fun j => (j, st.output)),
       reachesThrow sinks) := by
  intro sinks
  induction sinks with
  | nil => intro i st h; simp [writeSinks, deliveredCount, reachesThrow]
  | cons s rest ih =>
      intro i st h
      cases s with
      | throws => simp [writeSinks, deliveredCount, reachesThrow, List.range']
      | ok =>
          have hrest : ∀ s2 ∈ rest, isResubmit s2 = false :=
            fun s2 hs => h s2 (List.mem_cons_of_mem _ hs)
          simp [writeSinks, deliveredCount, reachesThrow, ih (i + 1) st hrest, List.range']
      | resubmit t f m =>
          have := h _ (List.mem_cons_self _ _)
          simp [isResubmit] at this

/-- After any flush without re-entrant sinks the buffer is empty and the
flag is cleared. -/
theorem flush_resets (sinks : List SinkB) (st : WState)
    (h : ∀ s ∈ sinks, isResubmit s = false) :
    (flush sinks st).1.output = [] ∧ (flush sinks st).1.scheduled = false := by
  simp only [flush]
  by_cases hc : (0 : Nat) < st.output.length
  · rw [if_pos (by simpa using hc)]
    rw [writeSinks_no_resubmit sinks 0 _ h]
    simp
  · rw [if_neg (by simpa using hc)]
    have hz : st.output.length = 0 := by omega
    exact ⟨List.eq_nil_of_length_eq_zero hz, rfl⟩

/-! ### The claims -/

/-- C1, corrected.  Counterexample to the claim as stated: with
`globalLevel = 0` and the rule table mapping web to -1, the event with level
0 and source web has every declared field matched to an entry of its rule
mapping, its level 0 is at most `max(globalLevel, matched levels) = max 0 (-1)
= 0`, yet the filter suppresses it (the -1 entry takes the early
rejection), so acceptance is not equivalent to the level comparison alone. -/
theorem claim1_counterexample :
    matchedLevels [("source", JSVal.vstr ("web")), ("level", JSVal.vnum 0)]
        [("source", [("aws", 4), ("web", -1)])] = some [-1]
    ∧ ((0 : Int) ≤ List.foldl max 0 [-1])
    ∧ filter 0 (some [("source", [("aws", 4), ("web", -1)])])
        [("source", JSVal.vstr ("web")), ("level", JSVal.vnum 0)] = false :=
  ⟨by decide, by decide, by decide⟩

/-- C1, amended claim: for every event carrying all declared filter fields
with values that have entries in their rule mappings, the filter accepts the
event iff every matched rule level is nonnegative and
`event.level <= max(globalLevel, all matched rule levels)`; the concrete
scenario (aws at level 0 emitted, web suppressed, aws at level 3 emitted) is
unchanged. -/
theorem claim1_filter_accept_iff (topLevel : Int) (entries : FilterEntries) (ctx : JObj)
    (ls : List Int) (n : Int)
    (hm : matchedLevels ctx entries = some ls)
    (hn : jsToNum (objGet ctx ("level")) = some n) :
    (filter topLevel (some entries) ctx = true ↔
      ((∀ l ∈ ls, 0 ≤ l) ∧ n ≤ ls.foldl max topLevel)) := by
  simp only [filter]
  rw [filterLoop_of_matched ctx entries topLevel ls hm]
  by_cases hneg : ls.any (fun l => decide (l < 0)) = true
  · rw [if_pos hneg]
    simp only [Bool.false_eq_true, false_iff, not_and]
    intro hall
    obtain ⟨l, hlmem, hl⟩ := List.any_eq_true.mp hneg
    have hlt : l < 0 := of_decide_eq_true hl
    have hge : 0 ≤ l := hall l hlmem
    intro hle
    exact absurd hge (not_le.mpr hlt)
  · rw [if_neg hneg]
    rw [hn]
    simp only [jsGtN, Bool.not_eq_true', decide_eq_false_iff_not, not_lt, gt_iff_lt]
    constructor
    · intro hle
      refine ⟨?_, hle⟩
      intro l hlmem
      by_contra hneg2
      exact hneg (List.any_eq_true.mpr ⟨l, hlmem, decide_eq_true (by omega)⟩)
    · intro hconj
      exact hconj.2

/-- C1 witness: the aws scenario, through the amended theorem. -/
theorem claim1_filter_accept_iff_witness :
    filter 0 (some [("source", [("aws", 4), ("web", -1)])])
      [("source", JSVal.vstr ("aws")), ("level", JSVal.vnum 0)] = true :=
  (claim1_filter_accept_iff 0 [("source", [("aws", 4), ("web", -1)])]
    [("source", JSVal.vstr ("aws")), ("level", JSVal.vnum 0)] [4] 0
    (by decide) (by decide)).mpr (by decide)

/-- C2, code bug.  The claim (and the -1 sentinel design of the source) say
an event with a declared field whose value has no entry in the rule mapping
is rejected outright; the code accepts it instead, at any level: the missing
entry reads as undefined, `undefined < 0` is false, `Math.max` then yields
NaN and `context.level > NaN` is false, so `filter` returns true.  Here the
rule declares only aws, the event has source db and level 7 above both the
global level 0 and every rule level, yet it passes. -/
theorem claim2_unmapped_value_accepted :
    filter 0 (some [("source", [("aws", 4)])])
      [("source", JSVal.vstr ("db")), ("level", JSVal.vnum 7)] = true := by decide

/-- C3, corrected.  Counterexample to the claim as stated: with a throwing
first sink and a second sink, the second sink receives no call at all (the
try block wraps the whole sink loop, so the catch aborts it), while the
claim promises it the full batch. -/
theorem claim3_counterexample :
    flush [SinkB.throws, SinkB.ok]
        ⟨[("all", true)], [("all", true)], [("info", "src", "x")], true⟩
      = (⟨[("all", true)], [("all", true)], [], false⟩, [(0, [("info", "src", "x")])], true)
    ∧ (1, [("info", "src", "x")]) ∉
        (flush [SinkB.throws, SinkB.ok]
          ⟨[("all", true)], [("all", true)], [("info", "src", "x")], true⟩).2.1 :=
  ⟨rfl, by decide⟩

/-- C3, amended claim: when an adapter write throws during a flush of a
non-empty batch, every adapter up to and including the throwing one receives
the same full batch, the adapters after it receive nothing for that flush,
the error is caught and reported (and flush itself returns, so nothing
propagates to the caller), and the scheduler state stays consistent: the
flag is cleared and the buffer emptied. -/
theorem claim3_amended (sinks : List SinkB) (st : WState)
    (hout : st.output ≠ [])
    (hnores : ∀ s ∈ sinks, isResubmit s = false) :
    flush sinks st =
      ({ st with scheduled := false, output := [] },
       (List.range (deliveredCount sinks)).map (fun j => (j, st.output)),
       reachesThrow sinks) := by
  have hlen : 0 < st.output.length := List.length_pos.mpr hout
  simp only [flush]
  rw [if_pos (by simpa using hlen)]
  rw [writeSinks_no_resubmit sinks 0 _ hnores]
  rw [List.range_eq_range']

/-- C3 witness: a throwing first sink followed by a healthy one, on a
one-entry batch. -/
theorem claim3_amended_witness :
    flush [SinkB.throws, SinkB.ok]
        ⟨[("all", true)], [("all", true)], [("info", "a", "m")], false⟩
      = (⟨[("all", true)], [("all", true)], [], false⟩, [(0, [("info", "a", "m")])], true) :=
  (claim3_amended [SinkB.throws, SinkB.ok]
    ⟨[("all", true)], [("all", true)], [("info", "a", "m")], false⟩
    (by decide) (by decide)).trans rfl

/-- C4, corrected.  Counterexample to the claim as stated: the buffer handed
to sinks is the live pending buffer, not a detached one.  A first sink
re-entrantly submits an event: that event appears in the batch handed to the
second sink of the same flush (claim: not included in the in-flight batch)
and the final pending buffer is empty (claim: the event survives in a fresh
pending buffer), so the event is lost. -/
theorem claim4_counterexample :
    flush [SinkB.resubmit ("info") ("src") [JSVal.vstr ("x")], SinkB.ok]
        ⟨[("all", true)], [("all", true)], [("debug", "a", "m0")], true⟩
      = (⟨[("all", true)], [("all", true)], [], true⟩,
         [(0, [("debug", "a", "m0")]), (1, [("debug", "a", "m0"), ("info", "src", "x")])],
         false) := rfl

/-- C4, amended claim: flush clears the scheduled flag before any sink write
runs, but does not detach the pending buffer first: sinks receive the live
buffer, and it is replaced by an empty one only after the sink loop.  An
event submitted re-entrantly from within a sink write (one that passes the
filter maps) is appended to the in-flight batch, is seen by the later sinks
of the same flush, and is dropped when flush completes; the re-entrant
write does set the scheduled flag again. -/
theorem claim4_amended (tm fm : List (String × Bool)) (out : List Entry) (sch : Bool)
    (t f : String) (m : List JSVal)
    (hout : out ≠ [])
    (h1 : (mapHas tm t || mapHas tm ("all")) = true)
    (h2 : mapHas tm ("!" ++ t) = false)
    (h3 : (mapHas fm f || mapHas fm ("all")) = true)
    (h4 : mapHas fm ("!" ++ f) = false) :
    flush [SinkB.resubmit t f m, SinkB.ok] ⟨tm, fm, out, sch⟩
      = (⟨tm, fm, [], true⟩, [(0, out), (1, out ++ [(t, f, prepMsg m)])], false) := by
  have hlen : 0 < out.length := List.length_pos.mpr hout
  simp only [flush, writeSinks, writeAsync]
  rw [if_pos (by simpa using hlen)]
  simp [h1, h2, h3, h4]

/-- C4 witness: a re-entrantly submitting first sink and a second sink, on a
one-entry batch with all-pass filter maps. -/
theorem claim4_amended_witness :
    flush [SinkB.resubmit ("info") ("src") [JSVal.vstr ("x")], SinkB.ok]
        ⟨[("all", true)], [("all", true)], [("debug", "a", "m0")], false⟩
      = (⟨[("all", true)], [("all", true)], [], true⟩,
         [(0, [("debug", "a", "m0")]),
          (1, [("debug", "a", "m0"), ("info", "src", "x")])],
         false) :=
  claim4_amended [("all", true)] [("all", true)] [("debug", "a", "m0")] false
    ("info") ("src") [JSVal.vstr ("x")]
    (by decide) (by decide) (by decide) (by decide) (by decide)

/-- C5, code bug.  The claim (and the stated policy that logging never
throws) fail on Log.error: its guard calls `message.indexOf(...)` on any
truthy message, and a number (or any other truthy value that is neither a
string nor an array) has no indexOf method, so the call raises a TypeError
that propagates to the application caller.  Evaluation of the embedded
method at the failing input `error(5)`. -/
theorem claim5_error_throws :
    errorMethod (JSVal.vnum 5) JSVal.vundefined
      = Except.error ("TypeError: message.indexOf is not a function") := rfl

/-- C6, code bug.  The claim (and the dead join branch of src line 189) say
an array message is joined with single spaces; the code instead JSON
stringifies it first (the non-string branch of src line 171 runs before the
array check, and after it the message is a string, never an array), so the
normalized message of `info(["a","b"])` is the JSON text, not `a b`. -/
theorem claim6_array_message_stringified :
    objGet (logCall [] 0 0 ("info") (JSVal.varr [JSVal.vstr ("a"), JSVal.vstr ("b")])
        (JSVal.vobj [])).1 ("message") = JSVal.vstr ("[\"a\",\"b\"]")
    ∧ ("[\"a\",\"b\"]" : String) ≠ "a b" :=
  ⟨rfl, by decide⟩

/-- C7, confirmed: the effective context of a chain of child derivations
agrees pointwise with the specification merge (root first, later keys
override), in particular an ancestor key bound by no later context keeps the
ancestor value; and in the concrete scenario a child derived with source db
from a root with service api delivers an event whose merged fields carry
both.  The embedding is pure because Log.child and Log.prep build fresh
objects (src lines 70 and 192), so no ancestor context is mutated. -/
theorem claim7_child_context :
    (∀ (root : JObj) (steps : List JObj) (k : String),
        objGetOpt (deriveChain root steps) k = specChainLookup root steps k
        ∧ ((∀ d ∈ steps, objGetOpt d k = none) →
            objGetOpt (deriveChain root steps) k = objGetOpt root k))
    ∧ objGet (logCall (childCtx [("service", JSVal.vstr ("api"))]
          [("source", JSVal.vstr ("db"))])
        0 0 ("info") (JSVal.vstr ("connected")) (JSVal.vobj [])).1 ("service")
        = JSVal.vstr ("api")
    ∧ objGet (logCall (childCtx [("service", JSVal.vstr ("api"))]
          [("source", JSVal.vstr ("db"))])
        0 0 ("info") (JSVal.vstr ("connected")) (JSVal.vobj [])).1 ("source")
        = JSVal.vstr ("db") := by
  refine ⟨?_, rfl, rfl⟩
  intro root steps k
  refine ⟨deriveChain_lookup steps root k, ?_⟩
  intro hall
  rw [deriveChain_lookup steps root k]
  simp only [specChainLookup]
  rw [List.findSome?_eq_none_iff.mpr (by
    intro d hd
    exact hall d (List.mem_reverse.mp hd))]

/-- C7 witness: the ancestor-key clause of the theorem at a concrete chain. -/
theorem claim7_child_context_witness :
    objGetOpt (deriveChain [("service", JSVal.vstr ("api"))]
      [[("source", JSVal.vstr ("db"))]]) ("service")
      = objGetOpt [("service", JSVal.vstr ("api"))] ("service") :=
  (claim7_child_context.1 [("service", JSVal.vstr ("api"))]
    [[("source", JSVal.vstr ("db"))]] ("service")).2 (by
      intro d hd
      simp only [List.mem_singleton] at hd
      subst hd
      rfl)

/-- C8, confirmed: a second flush right after a first one, with no submit in
between (in particular no re-entrant submit from a sink during the first
flush), makes no sink call at all, reports nothing, and leaves the state of
the first flush unchanged. -/
theorem claim8_flush_idempotent (sinks1 sinks2 : List SinkB) (st : WState)
    (h : ∀ s ∈ sinks1, isResubmit s = false) :
    flush sinks2 (flush sinks1 st).1 = ((flush sinks1 st).1, [], false) := by
  obtain ⟨ho, hs⟩ := flush_resets sinks1 st h
  generalize hg : (flush sinks1 st).1 = st1 at ho hs ⊢
  have h2 : flush sinks2 st1 = ({ st1 with scheduled := false }, [], false) := by
    simp only [flush]
    rw [if_neg (by simp [ho])]
  rw [h2, wstate_eta _ hs]

/-- C8 witness: two flushes of a console-free two-sink state. -/
theorem claim8_flush_idempotent_witness :
    flush [SinkB.ok]
        (flush [SinkB.ok] ⟨[("all", true)], [("all", true)], [("info", "a", "m")], true⟩).1
      = ((flush [SinkB.ok]
          ⟨[("all", true)], [("all", true)], [("info", "a", "m")], true⟩).1, [], false) :=
  claim8_flush_idempotent [SinkB.ok] [SinkB.ok]
    ⟨[("all", true)], [("all", true)], [("info", "a", "m")], true⟩ (by decide)

/-- C9, confirmed: when the filter specification declares a rule for a field
key and the merged context lacks that key or binds it to a falsy value, the
filter rejects the event whatever its level: the declared rule takes the -1
sentinel and the early rejection. -/
theorem claim9_declared_field_absent_rejects (topLevel : Int) (entries : FilterEntries)
    (ctx : JObj) (key : String) (item : List (String × Int))
    (hmem : (key, item) ∈ entries) (hfalsy : truthyJ (objGet ctx key) = false) :
    filter topLevel (some entries) ctx = false := by
  simp only [filter]
  rw [filterLoop_none_of_falsy ctx key item entries (some topLevel) hmem hfalsy]

/-- C9 witness: a rule on source, an event without a source field and with a
high level. -/
theorem claim9_declared_field_absent_rejects_witness :
    filter 0 (some [("source", [("aws", 4)])]) [("level", JSVal.vnum 99)] = false :=
  claim9_declared_field_absent_rejects 0 [("source", [("aws", 4)])]
    [("level", JSVal.vnum 99)] ("source") [("aws", 4)] (by decide) (by decide)

/-- C10, confirmed: Log.trace assigns through the caller context reference
(no copy happens before the assignment of src line 134, Log.submit copies
only afterwards), so the caller object after the call has level 5 when the
level was null, undefined or absent, keeps its old level otherwise, and
keeps every other binding unchanged; the change stays on the caller object
for any later reuse. -/
theorem claim10_trace_mutates_level (ctx : JObj) :
    (looseNull (objGet ctx ("level")) = true →
        objGet (traceCtxAfter ctx) ("level") = JSVal.vnum 5)
    ∧ (looseNull (objGet ctx ("level")) = false →
        objGet (traceCtxAfter ctx) ("level") = objGet ctx ("level"))
    ∧ (∀ k, k ≠ "level" → objGetOpt (traceCtxAfter ctx) k = objGetOpt ctx k) := by
  refine ⟨?_, ?_, ?_⟩
  · intro h
    unfold traceCtxAfter
    rw [h]
    simp [objGet, objGetOpt_objSet_self]
  · intro h
    unfold traceCtxAfter
    rw [h]
    simp [objGet, objGetOpt_objSet_self]
  · intro k hk
    unfold traceCtxAfter
    rw [objGetOpt_objSet_of_ne _ _ _ _ hk]

/-- C10 witness: a context without a level field gets level 5. -/
theorem claim10_trace_mutates_level_witness :
    objGet (traceCtxAfter [("source", JSVal.vstr ("db"))]) ("level") = JSVal.vnum 5 :=
  (claim10_trace_mutates_level [("source", JSVal.vstr ("db"))]).1 (by decide)

end JsLog
